import Mathlib

/-!
Verification development for the FlightControl hardware-dependency GNSS
(UBX protocol) layer.  The repository's header `src/src/IGps.h` declares the
data model (packet record, status and validity enumerations, payload bound,
default arguments); the protocol engine itself (checksum, framing codec,
matcher, dispatcher, decoders, power-request builder) is specified in
`spec.md` sections 4.1-4.6 and is modelled here from those words.
Machine bytes are `Nat` with explicit `% 256`; 16-bit lengths use `% 65536`.
-/

/-- Status enumeration `Isfe_ublox_status_e` from `src/src/IGps.h` lines 19-35. -/
inductive Isfe_ublox_status_e
  | SUCCESS
  | FAIL
  | CRC_FAIL
  | TIMEOUT
  | COMMAND_NACK
  | OUT_OF_RANGE
  | INVALID_ARG
  | INVALID_OPERATION
  | MEM_ERR
  | HW_ERR
  | DATA_SENT
  | DATA_RECEIVED
  | I2C_COMM_FAILURE
  | DATA_OVERWRITTEN
deriving DecidableEq

/-- Validity enumeration `Isfe_ublox_packet_validity_e` from `src/src/IGps.h`
lines 37-43.  Shared by the packet's `valid` and `classAndIDmatch` fields. -/
inductive Isfe_ublox_packet_validity_e
  | VALIDITY_NOT_VALID
  | VALIDITY_VALID
  | VALIDITY_NOT_DEFINED
  | NOTACKNOWLEDGED
deriving DecidableEq

open Isfe_ublox_status_e Isfe_ublox_packet_validity_e

/-- `MAX_PAYLOAD_SIZE` from `src/src/IGps.h` line 16: capacity of the payload
buffer in bytes. -/
def MAX_PAYLOAD_SIZE : Nat := 276

/-- Packet record `IUbxPacket` from `src/src/IGps.h` lines 45-57.  The
payload buffer is modelled as the list of bytes actually stored (capacity
`MAX_PAYLOAD_SIZE`). -/
structure IUbxPacket where
  cls : Nat
  id : Nat
  len : Nat
  counter : Nat
  startingSpot : Nat
  payload : List Nat
  checksumA : Nat
  checksumB : Nat
  valid : Isfe_ublox_packet_validity_e
  classAndIDmatch : Isfe_ublox_packet_validity_e
deriving DecidableEq

namespace ChecksumEngine

/-- Modelled from the spec: `ChecksumEngine.update` (spec.md section 4.1); the
implementation is absent from `src/`.  One step of the two-byte rolling
checksum: `accA' = (accA + byte) mod 256`, `accB' = (accB + accA') mod 256`. -/
def update (accA accB byte : Nat) : Nat × Nat :=
  let a := (accA + byte) % 256
  (a, (accB + a) % 256)

/-- Fold of `update` over a byte list from a given accumulator pair. -/
def fold (acc : Nat × Nat) (bytes : List Nat) : Nat × Nat :=
  bytes.foldl (fun p x => update p.1 p.2 x) acc

/-- Modelled from the spec: `ChecksumEngine.compute` (spec.md section 4.1);
the implementation is absent from `src/`.  Folds `update` over the byte
sequence starting from `(0, 0)`. -/
def compute (bytes : List Nat) : Nat × Nat := fold (0, 0) bytes

/-- Modelled from the spec: `ChecksumEngine.verify` (spec.md section 4.1); the
implementation is absent from `src/`.  Recomputes the checksum over
`class, id, lengthLow, lengthHigh, payload` and compares with the packet's
stored checksum bytes. -/
def verify (p : IUbxPacket) : Bool :=
  let r := compute (p.cls :: p.id :: p.len % 256 :: (p.len / 256) % 256 :: p.payload)
  r.1 == p.checksumA && r.2 == p.checksumB

end ChecksumEngine

namespace PacketCodec

/-- The checksummed byte range of a frame:
`class, id, lengthLow, lengthHigh, payload` with the length little-endian
(spec.md sections 4.2 and 6). -/
def frameBody (cls id : Nat) (payload : List Nat) : List Nat :=
  cls :: id :: payload.length % 256 :: (payload.length / 256) % 256 :: payload

/-- The raw wire bytes of a UBX frame (spec.md section 6):
`[0xB5, 0x62, class, id, lengthLow, lengthHigh, payload..., ckA, ckB]`. -/
def mkFrame (cls id : Nat) (payload : List Nat) : List Nat :=
  let ck := ChecksumEngine.compute (frameBody cls id payload)
  0xB5 :: 0x62 :: (frameBody cls id payload ++ [ck.1, ck.2])

/-- Modelled from the spec: `PacketCodec.encode` (spec.md section 4.2); the
implementation is absent from `src/`.  Serializes an outgoing command, failing
with `INVALID_ARG` when the payload exceeds `MAX_PAYLOAD_SIZE`. -/
def encode (cls id : Nat) (payload : List Nat) : Except Isfe_ublox_status_e (List Nat) :=
  if MAX_PAYLOAD_SIZE < payload.length then Except.error INVALID_ARG
  else Except.ok (mkFrame cls id payload)

/-- States of the byte-wise decode state machine (spec.md section 4.2). -/
inductive UbxDecodeStep
  | waitSync1
  | waitSync2
  | waitClass
  | waitId
  | waitLen1
  | waitLen2
  | waitPayload
  | waitChecksumA
  | waitChecksumB
  | complete
deriving DecidableEq

open UbxDecodeStep

/-- Full state of the decoder: current machine step, the packet being filled
in, the rolling checksum pair, and the `DATA_OVERWRITTEN` condition flag. -/
structure DecodeState where
  dstate : UbxDecodeStep
  packet : IUbxPacket
  rollA : Nat
  rollB : Nat
  overwritten : Bool
deriving DecidableEq

/-- A freshly initialized packet: counters zeroed, both validity fields
`VALIDITY_NOT_DEFINED` (per the comments on `IUbxPacket` in `src/src/IGps.h`). -/
def emptyPacket : IUbxPacket :=
  { cls := 0, id := 0, len := 0, counter := 0, startingSpot := 0, payload := [],
    checksumA := 0, checksumB := 0,
    valid := VALIDITY_NOT_DEFINED, classAndIDmatch := VALIDITY_NOT_DEFINED }

/-- The decoder state after a reset (spec.md section 4.4 step 2). -/
def resetState : DecodeState :=
  { dstate := waitSync1, packet := emptyPacket, rollA := 0, rollB := 0,
    overwritten := false }

/-- Modelled from the spec: one step of `PacketCodec.decode` (spec.md section
4.2); the implementation is absent from `src/`.  The counter counts the bytes
`class, id, lengthLow, lengthHigh, payload...`; a payload byte at index
`counter - 4` is stored only while within `MAX_PAYLOAD_SIZE`, and dropping a
byte raises the overwrite condition.  A mismatched byte in a sync state
resets to `waitSync1`; on the second checksum byte `valid` is set to
`VALIDITY_VALID` exactly when the rolling checksum matches the stored pair. -/
def decodeByte (s : DecodeState) (b : Nat) : DecodeState :=
  match s.dstate with
  | waitSync1 => if b = 0xB5 then { s with dstate := waitSync2 } else s
  | waitSync2 =>
      if b = 0x62 then { s with dstate := waitClass }
      else { s with dstate := waitSync1 }
  | waitClass =>
      let r := ChecksumEngine.update s.rollA s.rollB b
      { s with dstate := waitId,
               packet := { s.packet with cls := b, counter := s.packet.counter + 1 },
               rollA := r.1, rollB := r.2 }
  | waitId =>
      let r := ChecksumEngine.update s.rollA s.rollB b
      { s with dstate := waitLen1,
               packet := { s.packet with id := b, counter := s.packet.counter + 1 },
               rollA := r.1, rollB := r.2 }
  | waitLen1 =>
      let r := ChecksumEngine.update s.rollA s.rollB b
      { s with dstate := waitLen2,
               packet := { s.packet with len := b, counter := s.packet.counter + 1 },
               rollA := r.1, rollB := r.2 }
  | waitLen2 =>
      let r := ChecksumEngine.update s.rollA s.rollB b
      let l := s.packet.len + 256 * b
      { s with dstate := if l = 0 then waitChecksumA else waitPayload,
               packet := { s.packet with len := l, counter := s.packet.counter + 1 },
               rollA := r.1, rollB := r.2 }
  | waitPayload =>
      let r := ChecksumEngine.update s.rollA s.rollB b
      let store : Bool := decide (s.packet.counter - 4 < MAX_PAYLOAD_SIZE)
      let pk : IUbxPacket :=
        { s.packet with counter := s.packet.counter + 1,
                        payload := if store then s.packet.payload ++ [b] else s.packet.payload }
      { dstate := if pk.counter = 4 + pk.len then waitChecksumA else waitPayload,
        packet := pk, rollA := r.1, rollB := r.2,
        overwritten := s.overwritten || !store }
  | waitChecksumA =>
      { s with dstate := waitChecksumB, packet := { s.packet with checksumA := b } }
  | waitChecksumB =>
      let ok : Bool := s.rollA == s.packet.checksumA && s.rollB == b
      let pk : IUbxPacket :=
        { s.packet with checksumB := b,
                        valid := if ok then VALIDITY_VALID else VALIDITY_NOT_VALID }
      { s with dstate := complete, packet := pk }
  | complete => s

/-- Modelled from the spec: `PacketCodec.decode` (spec.md section 4.2); the
implementation is absent from `src/`.  Feeds the bytes one at a time into the
state machine. -/
def decode (s : DecodeState) (bytes : List Nat) : DecodeState :=
  bytes.foldl decodeByte s

/-- `true` when scanning `bytes` from state `s` never enters the `complete`
state (used to relate the decoder trajectory to the dispatcher loop). -/
def scanNoComplete : DecodeState → List Nat → Bool
  | _, [] => true
  | s, b :: rest =>
      let t := decodeByte s b
      if t.dstate = complete then false else scanNoComplete t rest

end PacketCodec

namespace PacketMatcher

/-- The UBX acknowledge class (fixed protocol constant, spec.md section 4.3). -/
def UBX_CLASS_ACK : Nat := 0x05

/-- Message id of an acknowledge inside the ACK class (spec.md section 4.3). -/
def UBX_ACK_ACK : Nat := 0x01

/-- Message id of a negative acknowledge inside the ACK class (spec.md
section 4.3). -/
def UBX_ACK_NACK : Nat := 0x00

/-- Modelled from the spec: `PacketMatcher.classify` (spec.md section 4.3);
the implementation is absent from `src/`.  `VALIDITY_VALID` if the packet's
class and id equal the requested pair; otherwise `NOTACKNOWLEDGED` if they
equal the fixed ACK-class/NACK-id pair; otherwise `VALIDITY_NOT_VALID`. -/
def classify (p : IUbxPacket) (requestedClass requestedId : Nat) :
    Isfe_ublox_packet_validity_e :=
  if p.cls = requestedClass ∧ p.id = requestedId then VALIDITY_VALID
  else if p.cls = UBX_CLASS_ACK ∧ p.id = UBX_ACK_NACK then NOTACKNOWLEDGED
  else VALIDITY_NOT_VALID

/-- Record the classification into the packet's `classAndIDmatch` field
(the `valid` field is untouched). -/
def applyMatch (p : IUbxPacket) (requestedClass requestedId : Nat) : IUbxPacket :=
  { p with classAndIDmatch := classify p requestedClass requestedId }

end PacketMatcher

namespace CommandDispatcher

open PacketCodec PacketMatcher

/-- Modelled from the spec: the polling loop of
`CommandDispatcher.sendCommand` (spec.md section 4.4); the implementation is
absent from `src/`.  `incoming` is the byte stream the transport delivers
before the `maxWaitMs` deadline; exhausting it is the deadline.  On a
completion that is checksum-valid and classified `VALIDITY_VALID` the loop
returns `DATA_RECEIVED` (data-bearing response) or `DATA_SENT` (pure ack);
classified `NOTACKNOWLEDGED` it returns `COMMAND_NACK` immediately; a
checksum-invalid completion records a CRC failure and keeps looping; any
other completion is discarded.  At the deadline the result is `CRC_FAIL`
when only CRC failures were seen, otherwise `TIMEOUT`. -/
def loop (requestedClass requestedId : Nat) :
    DecodeState → Bool → List Nat → Isfe_ublox_status_e
  | _, sawCrcFail, [] => if sawCrcFail then CRC_FAIL else TIMEOUT
  | s, sawCrcFail, b :: rest =>
      let t := decodeByte s b
      if t.dstate = UbxDecodeStep.complete then
        if t.packet.valid = VALIDITY_VALID then
          let p := applyMatch t.packet requestedClass requestedId
          match p.classAndIDmatch with
          | VALIDITY_VALID => if p.len = 0 then DATA_SENT else DATA_RECEIVED
          | NOTACKNOWLEDGED => COMMAND_NACK
          | _ => loop requestedClass requestedId resetState sawCrcFail rest
        else loop requestedClass requestedId resetState true rest
      else loop requestedClass requestedId t sawCrcFail rest

/-- Modelled from the spec: `CommandDispatcher.sendCommand` (spec.md section
4.4) against the declaration `IGps::sendCommand` in `src/src/IGps.h` line 231;
the implementation is absent from `src/`.  The requested class/id come from
the outgoing packet; `incoming` holds the bytes received within `maxWaitMs`. -/
def sendCommand (outgoingUBX : IUbxPacket) (incoming : List Nat) :
    Isfe_ublox_status_e :=
  loop outgoingUBX.cls outgoingUBX.id resetState false incoming

/-- All packets the decoder completes while scanning `bytes` from state `s`,
restarting from `resetState` after each completion. -/
def completionsFrom : DecodeState → List Nat → List IUbxPacket
  | _, [] => []
  | s, b :: rest =>
      let t := decodeByte s b
      if t.dstate = UbxDecodeStep.complete then t.packet :: completionsFrom resetState rest
      else completionsFrom t rest

/-- All packets the decoder completes on `incoming` starting from reset. -/
def completions (incoming : List Nat) : List IUbxPacket :=
  completionsFrom PacketCodec.resetState incoming

/-- The dispatcher's residual state after consuming a byte list without
deciding: `some (s, saw)` is the decoder state and CRC-failure flag the loop
carries into the following bytes, mirroring `loop` branch by branch;
`none` means the loop already returned (a checksum-valid completion that
classified as a match or as a NACK) somewhere inside the list. -/
def runState (requestedClass requestedId : Nat) :
    PacketCodec.DecodeState → Bool → List Nat →
      Option (PacketCodec.DecodeState × Bool)
  | s, sawCrcFail, [] => some (s, sawCrcFail)
  | s, sawCrcFail, b :: rest =>
      let t := PacketCodec.decodeByte s b
      if t.dstate = PacketCodec.UbxDecodeStep.complete then
        if t.packet.valid = VALIDITY_VALID then
          let p := PacketMatcher.applyMatch t.packet requestedClass requestedId
          match p.classAndIDmatch with
          | VALIDITY_VALID => none
          | NOTACKNOWLEDGED => none
          | _ => runState requestedClass requestedId PacketCodec.resetState
              sawCrcFail rest
        else runState requestedClass requestedId PacketCodec.resetState true rest
      else runState requestedClass requestedId t sawCrcFail rest

end CommandDispatcher

/-- Typed navigation record `NavigationFix` (spec.md section 3): position,
altitude and time fields decoded from a PVT payload. -/
structure NavigationFix where
  fixType : Nat
  satellitesInView : Nat
  gnssFixOk : Bool
  latitude : Int
  longitude : Int
  altitude : Int
  hour : Nat
  minute : Nat
  second : Nat
  dateValid : Bool
  timeValid : Bool
  timeFullyResolved : Bool
deriving DecidableEq

/-- Typed attitude record `AttitudeFix` (spec.md section 3): roll, pitch and
heading in degrees times 100, signed. -/
structure AttitudeFix where
  roll : Int
  pitch : Int
  heading : Int
deriving DecidableEq

namespace NavigationDecoder

/-- Minimum byte length of a UBX-NAV-PVT payload. -/
def PVT_MIN_LEN : Nat := 92

/-- Minimum byte length of a UBX-NAV-ATT payload. -/
def ATT_MIN_LEN : Nat := 32

/-- Byte of a payload at an index (0 when out of range). -/
def byteAt (payload : List Nat) (i : Nat) : Nat := payload.getD i 0

/-- Little-endian read of `n` bytes at offset `off`. -/
def readLE (payload : List Nat) (off : Nat) : Nat → Nat
  | 0 => 0
  | n + 1 => byteAt payload off + 256 * readLE payload (off + 1) n

/-- Two's-complement reinterpretation of a 32-bit value as a signed integer. -/
def toInt32 (v : Nat) : Int :=
  if v < 2147483648 then (v : Int) else (v : Int) - 4294967296

/-- Modelled from the spec: `NavigationDecoder.decodePVT` (spec.md section
4.5); the implementation is absent from `src/`.  Extracts the
`NavigationFix` fields at the protocol-fixed UBX-NAV-PVT offsets (time at
8-10, validity flags at 11, fixType at 20, fix flags at 21, satellites at 23,
longitude/latitude at 24/28, height above mean sea level at 36); an
undersized payload is a failure, reported as `none`. -/
def decodePVT (payload : List Nat) : Option NavigationFix :=
  if payload.length < PVT_MIN_LEN then none
  else some
    { fixType := byteAt payload 20,
      satellitesInView := byteAt payload 23,
      gnssFixOk := Nat.testBit (byteAt payload 21) 0,
      latitude := toInt32 (readLE payload 28 4),
      longitude := toInt32 (readLE payload 24 4),
      altitude := toInt32 (readLE payload 36 4),
      hour := byteAt payload 8,
      minute := byteAt payload 9,
      second := byteAt payload 10,
      dateValid := Nat.testBit (byteAt payload 11) 0,
      timeValid := Nat.testBit (byteAt payload 11) 1,
      timeFullyResolved := Nat.testBit (byteAt payload 11) 2 }

/-- Modelled from the spec: `NavigationDecoder.decodeATT` (spec.md section
4.5); the implementation is absent from `src/`.  Extracts roll/pitch/heading
at the UBX-NAV-ATT offsets 8/12/16 (signed, 1e-5 degrees on the wire,
converted to degrees times 100); an undersized payload is `none`. -/
def decodeATT (payload : List Nat) : Option AttitudeFix :=
  if payload.length < ATT_MIN_LEN then none
  else some
    { roll := toInt32 (readLE payload 8 4) / 1000,
      pitch := toInt32 (readLE payload 12 4) / 1000,
      heading := toInt32 (readLE payload 16 4) / 1000 }

/-- Modelled from the spec: the dispatcher caches the most recent
successfully decoded PVT record (spec.md sections 4.5 and 7); a short payload
yields the `FAIL` outcome and leaves the cache untouched. -/
def decodePVTInto (cache : NavigationFix) (payload : List Nat) :
    Isfe_ublox_status_e × NavigationFix :=
  match decodePVT payload with
  | none => (FAIL, cache)
  | some fix => (DATA_RECEIVED, fix)

/-- Modelled from the spec: cache update for attitude decodes, as
`decodePVTInto` (spec.md sections 4.5 and 7). -/
def decodeATTInto (cache : AttitudeFix) (payload : List Nat) :
    Isfe_ublox_status_e × AttitudeFix :=
  match decodeATT payload with
  | none => (FAIL, cache)
  | some fix => (DATA_RECEIVED, fix)

end NavigationDecoder

namespace PowerRequestBuilder

/-- UBX class of the receiver-manager messages (RXM). -/
def UBX_CLASS_RXM : Nat := 0x02

/-- Message id of the power-management request RXM-PMREQ. -/
def UBX_RXM_PMREQ : Nat := 0x41

/-- Four little-endian bytes of a 32-bit word. -/
def u32LE (v : Nat) : List Nat :=
  [v % 256, v / 256 % 256, v / 65536 % 256, v / 16777216 % 256]

/-- Force-power-down-despite-USB bit of the RXM-PMREQ flags word. -/
def FORCE_FLAG : Nat := 0x04

/-- Modelled from the spec: `PowerRequestBuilder.buildPowerOff` payload
(spec.md sections 4.6 and 6); the implementation is absent from `src/`.
Fixed layout `{durationMs:u32-LE, flags:u32-LE, wakeupSources:u32-LE}`, the
flags word carrying the force-despite-USB bit. -/
def buildPowerOff (durationInMs wakeupSources : Nat) (forceWhileUsb : Bool) :
    List Nat :=
  u32LE durationInMs ++ u32LE (if forceWhileUsb then FORCE_FLAG else 0) ++
    u32LE wakeupSources

/-- The outgoing RXM-PMREQ packet for a power-off request. -/
def pmreqPacket (durationInMs wakeupSources : Nat) (forceWhileUsb : Bool) :
    IUbxPacket :=
  { PacketCodec.emptyPacket with
      cls := UBX_CLASS_RXM, id := UBX_RXM_PMREQ, len := 12,
      payload := buildPowerOff durationInMs wakeupSources forceWhileUsb }

/-- Modelled from the spec: `IGps::powerOffWithInterrupt` (declaration in
`src/src/IGps.h` lines 211-223, behaviour from spec.md section 4.6); the
implementation is absent from `src/`.  Builds the RXM-PMREQ payload,
delegates to `CommandDispatcher.sendCommand`, and returns `true` exactly on
the `DATA_SENT` (acknowledged) outcome; the raw outcome is not exposed. -/
def powerOffWithInterrupt (durationInMs wakeupSources : Nat)
    (forceWhileUsb : Bool) (incoming : List Nat) : Bool :=
  CommandDispatcher.sendCommand
      (pmreqPacket durationInMs wakeupSources forceWhileUsb) incoming
    == DATA_SENT

/-- Default of the `forceWhileUsb` parameter, from the declaration
`virtual bool powerOffWithInterrupt(..., bool forceWhileUsb = true)` in
`src/src/IGps.h` line 223. -/
def forceWhileUsbDefault : Bool := true

/-- A call of `powerOffWithInterrupt` with its `forceWhileUsb` argument
omitted: C++ fills in the declared default. -/
def powerOffWithInterruptDefault (durationInMs wakeupSources : Nat)
    (incoming : List Nat) : Bool :=
  powerOffWithInterrupt durationInMs wakeupSources forceWhileUsbDefault incoming

end PowerRequestBuilder

/-- A concrete cached navigation record, used to exercise the decoders. -/
def sampleFix : NavigationFix :=
  { fixType := 3, satellitesInView := 9, gnssFixOk := true,
    latitude := 449778910, longitude := -931651120, altitude := 256000,
    hour := 12, minute := 34, second := 56,
    dateValid := true, timeValid := true, timeFullyResolved := false }

/-- A concrete cached attitude record, used to exercise the decoders. -/
def sampleAtt : AttitudeFix := { roll := 125, pitch := -250, heading := 9000 }

/-! ## Checksum arithmetic -/

/-- The first rolling-checksum accumulator after folding a byte list is the
byte sum modulo 256 (for an in-range starting accumulator). -/
theorem csFold_fst (l : List Nat) : ∀ a c : Nat, a < 256 →
    (ChecksumEngine.fold (a, c) l).1 = (a + l.sum) % 256 := by
  induction l with
  | nil =>
      intro a c h
      simp [ChecksumEngine.fold, Nat.mod_eq_of_lt h]
  | cons x t ih =>
      intro a c h
      have step := ih ((a + x) % 256) ((c + (a + x) % 256) % 256)
        (Nat.mod_lt _ (by norm_num))
      simp only [ChecksumEngine.fold, List.foldl_cons, ChecksumEngine.update] at step ⊢
      rw [step]
      simp only [List.sum_cons]
      omega

/-- C5: flipping any single bit of one payload byte of an encoded frame makes
`ChecksumEngine.verify` return `false`: the frame keeps the checksum computed
by the rolling pair over class, id, the two length bytes and the original
payload, and is verified with byte `b` at an arbitrary payload position
replaced by `b` with bit `k` flipped. -/
theorem bitflip_breaks_verify (cls id b k : Nat) (pre suf : List Nat)
    (hb : b < 256) (hk : k < 8) :
    ChecksumEngine.verify
      { cls := cls, id := id, len := (pre ++ b :: suf).length,
        counter := 0, startingSpot := 0,
        payload := pre ++ (b ^^^ 2 ^ k) :: suf,
        checksumA := (ChecksumEngine.compute (PacketCodec.frameBody cls id (pre ++ b :: suf))).1,
        checksumB := (ChecksumEngine.compute (PacketCodec.frameBody cls id (pre ++ b :: suf))).2,
        valid := VALIDITY_NOT_DEFINED,
        classAndIDmatch := VALIDITY_NOT_DEFINED } = false := by
  have hklt : (2 : Nat) ^ k < 256 := by
    calc (2 : Nat) ^ k < 2 ^ 8 := Nat.pow_lt_pow_right (by norm_num) hk
    _ = 256 := by norm_num
  have hx : b ^^^ 2 ^ k < 256 := by
    have h8 : b ^^^ 2 ^ k < 2 ^ 8 :=
      Nat.xor_lt_two_pow (by norm_num [hb]) (by norm_num [hklt])
    simpa using h8
  have hne : b ^^^ 2 ^ k ≠ b := by
    intro h
    have h0 : b ^^^ 2 ^ k = b ^^^ 0 := by simpa using h
    have : (2 : Nat) ^ k = 0 := Nat.xor_right_inj.mp h0
    exact absurd this (pow_ne_zero k (by norm_num))
  have key : (ChecksumEngine.compute
        (cls :: id :: (pre ++ b :: suf).length % 256 ::
          ((pre ++ b :: suf).length / 256) % 256 :: (pre ++ (b ^^^ 2 ^ k) :: suf))).1 ≠
      (ChecksumEngine.compute (PacketCodec.frameBody cls id (pre ++ b :: suf))).1 := by
    rw [PacketCodec.frameBody, ChecksumEngine.compute, ChecksumEngine.compute,
      csFold_fst _ 0 0 (by norm_num), csFold_fst _ 0 0 (by norm_num)]
    simp only [List.sum_cons, List.sum_append]
    omega
  simp only [ChecksumEngine.verify, Bool.and_eq_false_iff, beq_eq_false_iff_ne, ne_eq]
  left
  exact key

/-- C5 witness: a concrete frame (class 6, id 1, payload `[0xAA, 0xBB]`) with
bit 3 of the first payload byte flipped fails verification. -/
theorem bitflip_breaks_verify_witness :
    ChecksumEngine.verify
      { cls := 6, id := 1, len := ([] ++ 0xAA :: [0xBB]).length,
        counter := 0, startingSpot := 0,
        payload := [] ++ (0xAA ^^^ 2 ^ 3) :: [0xBB],
        checksumA := (ChecksumEngine.compute (PacketCodec.frameBody 6 1 ([] ++ 0xAA :: [0xBB]))).1,
        checksumB := (ChecksumEngine.compute (PacketCodec.frameBody 6 1 ([] ++ 0xAA :: [0xBB]))).2,
        valid := VALIDITY_NOT_DEFINED,
        classAndIDmatch := VALIDITY_NOT_DEFINED } = false :=
  bitflip_breaks_verify 6 1 0xAA 3 [] [0xBB] (by decide) (by decide)

/-! ## PacketMatcher -/

/-- C4: `classify` returns `VALIDITY_VALID` on a class/id match, otherwise
`NOTACKNOWLEDGED` on the fixed ACK-class/NACK-id pair, and
`VALIDITY_NOT_VALID` in every other case (the clauses read in order, as in
the spec). -/
theorem classify_cases (p : IUbxPacket) (rc ri : Nat) :
    (p.cls = rc ∧ p.id = ri → PacketMatcher.classify p rc ri = VALIDITY_VALID) ∧
    (¬(p.cls = rc ∧ p.id = ri) →
      p.cls = PacketMatcher.UBX_CLASS_ACK ∧ p.id = PacketMatcher.UBX_ACK_NACK →
      PacketMatcher.classify p rc ri = NOTACKNOWLEDGED) ∧
    (¬(p.cls = rc ∧ p.id = ri) →
      ¬(p.cls = PacketMatcher.UBX_CLASS_ACK ∧ p.id = PacketMatcher.UBX_ACK_NACK) →
      PacketMatcher.classify p rc ri = VALIDITY_NOT_VALID) := by
  refine ⟨fun h => ?_, fun h1 h2 => ?_, fun h1 h2 => ?_⟩
  · rw [PacketMatcher.classify, if_pos h]
  · rw [PacketMatcher.classify, if_neg h1, if_pos h2]
  · rw [PacketMatcher.classify, if_neg h1, if_neg h2]

/-- C4 witness: concrete packets exercising all three classification cases
against the requested pair (6, 1). -/
theorem classify_cases_witness :
    PacketMatcher.classify { PacketCodec.emptyPacket with cls := 6, id := 1 } 6 1 =
      VALIDITY_VALID ∧
    PacketMatcher.classify { PacketCodec.emptyPacket with cls := 5, id := 0 } 6 1 =
      NOTACKNOWLEDGED ∧
    PacketMatcher.classify { PacketCodec.emptyPacket with cls := 1, id := 7 } 6 1 =
      VALIDITY_NOT_VALID :=
  ⟨(classify_cases { PacketCodec.emptyPacket with cls := 6, id := 1 } 6 1).1
      (by decide),
   (classify_cases { PacketCodec.emptyPacket with cls := 5, id := 0 } 6 1).2.1
      (by decide) (by decide),
   (classify_cases { PacketCodec.emptyPacket with cls := 1, id := 7 } 6 1).2.2
      (by decide) (by decide)⟩

/-! ## NavigationDecoder -/

/-- C6: a payload shorter than the minimum PVT size decodes to the `FAIL`
outcome and leaves the cached `NavigationFix` unchanged, and likewise a
payload shorter than the minimum ATT size for the cached `AttitudeFix`. -/
theorem short_payload_preserves_cache (cache : NavigationFix) (cacheA : AttitudeFix)
    (pvtPayload attPayload : List Nat)
    (h1 : pvtPayload.length < NavigationDecoder.PVT_MIN_LEN)
    (h2 : attPayload.length < NavigationDecoder.ATT_MIN_LEN) :
    NavigationDecoder.decodePVTInto cache pvtPayload = (FAIL, cache) ∧
    NavigationDecoder.decodeATTInto cacheA attPayload = (FAIL, cacheA) := by
  constructor
  · rw [NavigationDecoder.decodePVTInto, NavigationDecoder.decodePVT, if_pos h1]
  · rw [NavigationDecoder.decodeATTInto, NavigationDecoder.decodeATT, if_pos h2]

/-- C6 witness: a 10-byte payload is below both minima; both cached records
survive unchanged with a `FAIL` outcome. -/
theorem short_payload_preserves_cache_witness :
    NavigationDecoder.decodePVTInto sampleFix [1, 2, 3, 4, 5, 6, 7, 8, 9, 10] =
      (FAIL, sampleFix) ∧
    NavigationDecoder.decodeATTInto sampleAtt [1, 2, 3, 4, 5, 6, 7, 8, 9, 10] =
      (FAIL, sampleAtt) :=
  short_payload_preserves_cache sampleFix sampleAtt
    [1, 2, 3, 4, 5, 6, 7, 8, 9, 10] [1, 2, 3, 4, 5, 6, 7, 8, 9, 10]
    (by decide) (by decide)

/-! ## PowerRequestBuilder -/

/-- C8: `powerOffWithInterrupt` returns `true` exactly when the underlying
`sendCommand` invocation yields the `DATA_SENT` (acknowledged) outcome, and
`false` on every other outcome; the caller sees only the Boolean. -/
theorem powerOff_true_iff_data_sent (durationInMs wakeupSources : Nat)
    (forceWhileUsb : Bool) (incoming : List Nat) :
    PowerRequestBuilder.powerOffWithInterrupt durationInMs wakeupSources
        forceWhileUsb incoming = true ↔
      CommandDispatcher.sendCommand
          (PowerRequestBuilder.pmreqPacket durationInMs wakeupSources forceWhileUsb)
          incoming = DATA_SENT := by
  rw [PowerRequestBuilder.powerOffWithInterrupt]
  exact beq_iff_eq

/-- C10: omitting `forceWhileUsb` uses the declared default `true`, so the
call behaves identically to an explicit `forceWhileUsb = true` call, and the
payload built under the default carries the force-despite-USB flag. -/
theorem powerOff_default_forces_usb (durationInMs wakeupSources : Nat)
    (incoming : List Nat) :
    PowerRequestBuilder.powerOffWithInterruptDefault durationInMs wakeupSources
        incoming =
      PowerRequestBuilder.powerOffWithInterrupt durationInMs wakeupSources true
        incoming ∧
    (PowerRequestBuilder.buildPowerOff durationInMs wakeupSources
        PowerRequestBuilder.forceWhileUsbDefault).getD 4 0 =
      PowerRequestBuilder.FORCE_FLAG :=
  ⟨rfl, rfl⟩

/-! ## Decoder invariant on the `valid` field -/

/-- One decode step either leaves the packet's `valid` field unchanged or
sets it to `VALIDITY_VALID` or `VALIDITY_NOT_VALID` (never to
`NOTACKNOWLEDGED`). -/
theorem decodeByte_valid_cases (s : PacketCodec.DecodeState) (b : Nat) :
    (PacketCodec.decodeByte s b).packet.valid = s.packet.valid ∨
    (PacketCodec.decodeByte s b).packet.valid = VALIDITY_VALID ∨
    (PacketCodec.decodeByte s b).packet.valid = VALIDITY_NOT_VALID := by
  rw [PacketCodec.decodeByte]
  cases s.dstate <;> (try simp) <;> (try split) <;> (try simp) <;> (try tauto)

/-- Scanning any byte list preserves the property that the packet's `valid`
field is not `NOTACKNOWLEDGED`. -/
theorem decode_valid_ne_notacknowledged (bytes : List Nat) :
    ∀ s : PacketCodec.DecodeState, s.packet.valid ≠ NOTACKNOWLEDGED →
      (PacketCodec.decode s bytes).packet.valid ≠ NOTACKNOWLEDGED := by
  induction bytes with
  | nil => intro s h; simpa [PacketCodec.decode] using h
  | cons b rest ih =>
      intro s h
      have hstep := decodeByte_valid_cases s b
      have : (PacketCodec.decodeByte s b).packet.valid ≠ NOTACKNOWLEDGED := by
        rcases hstep with h1 | h1 | h1 <;> rw [h1] <;> simp_all
      simpa [PacketCodec.decode] using
        ih (PacketCodec.decodeByte s b) this

/-- C9: in every packet state reachable by running the decoder from reset,
and still after the dispatcher records the classification result, the
`valid` field never takes the value `NOTACKNOWLEDGED`; that value can appear
only in `classAndIDmatch`. -/
theorem valid_field_never_notacknowledged (bytes : List Nat) (rc ri : Nat) :
    (PacketCodec.decode PacketCodec.resetState bytes).packet.valid ≠ NOTACKNOWLEDGED ∧
    (PacketMatcher.applyMatch
        (PacketCodec.decode PacketCodec.resetState bytes).packet rc ri).valid ≠
      NOTACKNOWLEDGED := by
  have h := decode_valid_ne_notacknowledged bytes PacketCodec.resetState
    (by rw [PacketCodec.resetState]; simp [PacketCodec.emptyPacket])
  exact ⟨h, by rw [PacketMatcher.applyMatch]; exact h⟩

theorem decode_append (s : PacketCodec.DecodeState) (l1 l2 : List Nat) :
    PacketCodec.decode s (l1 ++ l2) =
      PacketCodec.decode (PacketCodec.decode s l1) l2 := by
  simp [PacketCodec.decode, List.foldl_append]

theorem payloadRun (chunk : List Nat) :
    ∀ (pk : IUbxPacket) (a c : Nat) (ow : Bool), chunk ≠ [] →
      4 ≤ pk.counter → pk.counter + chunk.length = 4 + pk.len →
      PacketCodec.decode
          ⟨PacketCodec.UbxDecodeStep.waitPayload, pk, a, c, ow⟩ chunk =
        ⟨PacketCodec.UbxDecodeStep.waitChecksumA,
         { pk with counter := 4 + pk.len,
                   payload := pk.payload ++
                     chunk.take (4 + MAX_PAYLOAD_SIZE - pk.counter) },
         (ChecksumEngine.fold (a, c) chunk).1,
         (ChecksumEngine.fold (a, c) chunk).2,
         ow || decide (MAX_PAYLOAD_SIZE < pk.len)⟩ ∧
      PacketCodec.scanNoComplete
          ⟨PacketCodec.UbxDecodeStep.waitPayload, pk, a, c, ow⟩ chunk = true := by
  induction chunk with
  | nil => intro pk a c ow hne; exact absurd rfl hne
  | cons x rest ih =>
      intro pk a c ow _ h4 hlen
      simp only [List.length_cons] at hlen
      rcases eq_or_ne rest [] with hrest | hrest
      · subst hrest
        simp only [List.length_nil] at hlen
        have hcnt : pk.counter + 1 = 4 + pk.len := by omega
        have hpay : (if pk.counter - 4 < MAX_PAYLOAD_SIZE
              then pk.payload ++ [x] else pk.payload) =
            pk.payload ++ List.take (4 + MAX_PAYLOAD_SIZE - pk.counter) [x] := by
          by_cases hst : pk.counter - 4 < MAX_PAYLOAD_SIZE
          · rw [if_pos hst]
            congr 1
            rw [List.take_of_length_le]
            simp only [List.length_cons, List.length_nil]
            simp only [MAX_PAYLOAD_SIZE] at hst ⊢
            omega
          · rw [if_neg hst]
            have h0 : 4 + MAX_PAYLOAD_SIZE - pk.counter = 0 := by
              simp only [MAX_PAYLOAD_SIZE] at hst ⊢
              omega
            simp [h0]
        have how : (!decide (pk.counter - 4 < MAX_PAYLOAD_SIZE)) =
            decide (MAX_PAYLOAD_SIZE < pk.len) := by
          rw [← decide_not, decide_eq_decide]
          simp only [MAX_PAYLOAD_SIZE]
          omega
        constructor
        · simp only [PacketCodec.decode, List.foldl_cons, List.foldl_nil,
            PacketCodec.decodeByte]
          rw [if_pos hcnt]
          simp [ChecksumEngine.fold, hpay, how, hcnt]
        · simp [PacketCodec.scanNoComplete, PacketCodec.decodeByte, hcnt]
      · have hrl : 1 ≤ rest.length := List.length_pos.mpr hrest
        have hlt : ¬ (pk.counter + 1 = 4 + pk.len) := by omega
        have step := ih
          { pk with counter := pk.counter + 1,
                    payload := if decide (pk.counter - 4 < MAX_PAYLOAD_SIZE) = true
                      then pk.payload ++ [x] else pk.payload }
          (ChecksumEngine.update a c x).1 (ChecksumEngine.update a c x).2
          (ow || !decide (pk.counter - 4 < MAX_PAYLOAD_SIZE)) hrest
          (by simp; omega) (by simp; omega)
        constructor
        · simp only [PacketCodec.decode, List.foldl_cons, PacketCodec.decodeByte]
          rw [if_neg hlt]
          simp only [PacketCodec.decode] at step
          rw [step.1]
          by_cases hst : pk.counter - 4 < MAX_PAYLOAD_SIZE
          · obtain ⟨m, hm⟩ : ∃ m, 4 + MAX_PAYLOAD_SIZE - pk.counter = m + 1 := by
              refine ⟨4 + MAX_PAYLOAD_SIZE - pk.counter - 1, ?_⟩
              simp only [MAX_PAYLOAD_SIZE] at hst ⊢
              omega
            have hm1 : 4 + MAX_PAYLOAD_SIZE - (pk.counter + 1) = m := by
              simp only [MAX_PAYLOAD_SIZE] at hst hm ⊢
              omega
            simp [hst, hm, hm1, List.take_succ_cons, ChecksumEngine.fold,
              List.foldl_cons]
          · have h0 : 4 + MAX_PAYLOAD_SIZE - pk.counter = 0 := by
              simp only [MAX_PAYLOAD_SIZE] at hst ⊢
              omega
            have h1 : 4 + MAX_PAYLOAD_SIZE - (pk.counter + 1) = 0 := by
              simp only [MAX_PAYLOAD_SIZE] at hst ⊢
              omega
            have hd : MAX_PAYLOAD_SIZE < pk.len := by
              simp only [MAX_PAYLOAD_SIZE] at hst ⊢
              omega
            simp [hst, h0, h1, hd, ChecksumEngine.fold, List.foldl_cons]
        · simp only [PacketCodec.scanNoComplete, PacketCodec.decodeByte]
          rw [if_neg hlt]
          rw [if_neg (by decide :
            ¬ (PacketCodec.UbxDecodeStep.waitPayload = PacketCodec.UbxDecodeStep.complete))]
          exact step.2

/-- Folding the rolling checksum over a concatenation. -/
theorem csFold_append (acc : Nat × Nat) (u v : List Nat) :
    ChecksumEngine.fold acc (u ++ v) =
      ChecksumEngine.fold (ChecksumEngine.fold acc u) v := by
  simp [ChecksumEngine.fold, List.foldl_append]

/-- `scanNoComplete` over a concatenation. -/
theorem scan_append (l1 l2 : List Nat) :
    ∀ s : PacketCodec.DecodeState,
      PacketCodec.scanNoComplete s (l1 ++ l2) =
        (PacketCodec.scanNoComplete s l1 &&
          PacketCodec.scanNoComplete (PacketCodec.decode s l1) l2) := by
  induction l1 with
  | nil => intro s; simp [PacketCodec.scanNoComplete, PacketCodec.decode]
  | cons b t ih =>
      intro s
      simp only [List.cons_append, PacketCodec.scanNoComplete]
      by_cases hc : (PacketCodec.decodeByte s b).dstate = PacketCodec.UbxDecodeStep.complete
      · rw [if_pos hc, if_pos hc]
        simp
      · rw [if_neg hc, if_neg hc]
        simp only [List.append_eq]
        rw [ih]
        simp [PacketCodec.decode]

/-- The decoder state after the two sync bytes and the four header bytes. -/
theorem decode_header (cls id l1 l2 : Nat) :
    PacketCodec.decode PacketCodec.resetState [0xB5, 0x62, cls, id, l1, l2] =
      ⟨if l1 + 256 * l2 = 0 then PacketCodec.UbxDecodeStep.waitChecksumA
        else PacketCodec.UbxDecodeStep.waitPayload,
       { cls := cls, id := id, len := l1 + 256 * l2, counter := 4,
         startingSpot := 0, payload := [], checksumA := 0, checksumB := 0,
         valid := VALIDITY_NOT_DEFINED, classAndIDmatch := VALIDITY_NOT_DEFINED },
       (ChecksumEngine.fold (0, 0) [cls, id, l1, l2]).1,
       (ChecksumEngine.fold (0, 0) [cls, id, l1, l2]).2,
       false⟩ := by
  simp [PacketCodec.decode, List.foldl_cons, List.foldl_nil, PacketCodec.decodeByte,
    PacketCodec.resetState, PacketCodec.emptyPacket, ChecksumEngine.fold,
    ChecksumEngine.update]
  omega

/-- Running the decoder from reset over a whole frame except its final
checksum byte: the machine lands in `waitChecksumB` with the header fields
parsed, the payload stored up to capacity, the counter at declared length
plus four, the first checksum byte recorded, and the rolling pair equal to
the checksum of the frame body; no intermediate state is `complete`. -/
theorem run_front (cls id : Nat) (payload : List Nat) (h : payload.length < 65536) :
    PacketCodec.decode PacketCodec.resetState
        (0xB5 :: 0x62 :: (PacketCodec.frameBody cls id payload ++
          [(ChecksumEngine.compute (PacketCodec.frameBody cls id payload)).1])) =
      ⟨PacketCodec.UbxDecodeStep.waitChecksumB,
       { cls := cls, id := id, len := payload.length,
         counter := payload.length + 4, startingSpot := 0,
         payload := payload.take MAX_PAYLOAD_SIZE,
         checksumA := (ChecksumEngine.compute (PacketCodec.frameBody cls id payload)).1,
         checksumB := 0,
         valid := VALIDITY_NOT_DEFINED, classAndIDmatch := VALIDITY_NOT_DEFINED },
       (ChecksumEngine.compute (PacketCodec.frameBody cls id payload)).1,
       (ChecksumEngine.compute (PacketCodec.frameBody cls id payload)).2,
       decide (MAX_PAYLOAD_SIZE < payload.length)⟩ ∧
    PacketCodec.scanNoComplete PacketCodec.resetState
        (0xB5 :: 0x62 :: (PacketCodec.frameBody cls id payload ++
          [(ChecksumEngine.compute (PacketCodec.frameBody cls id payload)).1])) = true := by
  have hsplit : (0xB5 :: 0x62 :: (PacketCodec.frameBody cls id payload ++
        [(ChecksumEngine.compute (PacketCodec.frameBody cls id payload)).1])) =
      [0xB5, 0x62, cls, id, payload.length % 256, payload.length / 256 % 256] ++
        (payload ++
          [(ChecksumEngine.compute (PacketCodec.frameBody cls id payload)).1]) := by
    simp [PacketCodec.frameBody]
  have hmod : payload.length % 256 + 256 * (payload.length / 256 % 256) =
      payload.length := by omega
  rcases payload with _ | ⟨p, ps⟩
  · constructor
    · rw [hsplit]
      simp [PacketCodec.decode, List.foldl_cons, List.foldl_nil,
        PacketCodec.decodeByte, PacketCodec.resetState, PacketCodec.emptyPacket,
        PacketCodec.frameBody, ChecksumEngine.compute, ChecksumEngine.fold,
        ChecksumEngine.update]
      omega
    · rw [hsplit]
      simp [PacketCodec.scanNoComplete, PacketCodec.decodeByte,
        PacketCodec.resetState, PacketCodec.emptyPacket, PacketCodec.frameBody,
        ChecksumEngine.compute, ChecksumEngine.fold, ChecksumEngine.update]
  · have hne : (p :: ps) ≠ [] := by simp
    have hL : ¬ ((p :: ps).length = 0) := by simp
    have hrun := payloadRun (p :: ps)
      { cls := cls, id := id, len := (p :: ps).length, counter := 4,
        startingSpot := 0, payload := [], checksumA := 0, checksumB := 0,
        valid := VALIDITY_NOT_DEFINED, classAndIDmatch := VALIDITY_NOT_DEFINED }
      (ChecksumEngine.fold (0, 0)
        [cls, id, (p :: ps).length % 256, (p :: ps).length / 256 % 256]).1
      (ChecksumEngine.fold (0, 0)
        [cls, id, (p :: ps).length % 256, (p :: ps).length / 256 % 256]).2
      false hne (by norm_num) (by simp)
    have hb : [cls, id, (p :: ps).length % 256, (p :: ps).length / 256 % 256] ++
        (p :: ps) = PacketCodec.frameBody cls id (p :: ps) := by
      simp [PacketCodec.frameBody]
    constructor
    · rw [hsplit, decode_append, decode_header, hmod, if_neg hL, decode_append,
        hrun.1]
      simp only [PacketCodec.decode, List.foldl_cons, List.foldl_nil,
        PacketCodec.decodeByte]
      simp only [Prod.mk.eta]
      rw [← csFold_append, hb]
      simp [ChecksumEngine.compute, Nat.add_comm]
    · rw [hsplit, scan_append, decode_header, hmod, if_neg hL, scan_append,
        hrun.1, hrun.2]
      simp [PacketCodec.scanNoComplete, PacketCodec.decodeByte,
        PacketCodec.resetState, PacketCodec.emptyPacket, hmod, hL]
      split <;> simp

/-- Running the decoder from reset over a complete well-formed frame: the
machine reaches `complete`, the header fields and checksum bytes are
recorded, the payload is stored up to capacity, and `valid` is
`VALIDITY_VALID` because the rolling checksum matches the frame's checksum
bytes. -/
theorem run_mkFrame (cls id : Nat) (payload : List Nat)
    (h : payload.length < 65536) :
    PacketCodec.decode PacketCodec.resetState (PacketCodec.mkFrame cls id payload) =
      ⟨PacketCodec.UbxDecodeStep.complete,
       { cls := cls, id := id, len := payload.length,
         counter := payload.length + 4, startingSpot := 0,
         payload := payload.take MAX_PAYLOAD_SIZE,
         checksumA := (ChecksumEngine.compute (PacketCodec.frameBody cls id payload)).1,
         checksumB := (ChecksumEngine.compute (PacketCodec.frameBody cls id payload)).2,
         valid := VALIDITY_VALID, classAndIDmatch := VALIDITY_NOT_DEFINED },
       (ChecksumEngine.compute (PacketCodec.frameBody cls id payload)).1,
       (ChecksumEngine.compute (PacketCodec.frameBody cls id payload)).2,
       decide (MAX_PAYLOAD_SIZE < payload.length)⟩ := by
  have hsplit2 : PacketCodec.mkFrame cls id payload =
      (0xB5 :: 0x62 :: (PacketCodec.frameBody cls id payload ++
        [(ChecksumEngine.compute (PacketCodec.frameBody cls id payload)).1])) ++
        [(ChecksumEngine.compute (PacketCodec.frameBody cls id payload)).2] := by
    simp [PacketCodec.mkFrame]
  rw [hsplit2, decode_append, (run_front cls id payload h).1]
  simp [PacketCodec.decode, PacketCodec.decodeByte]

/-- C1: for every class byte, id byte and payload of length at most
`MAX_PAYLOAD_SIZE`, `encode` succeeds with the wire frame, and feeding those
bytes one at a time into a freshly reset decoder reaches `complete` with the
same class, id and payload and with `valid = VALIDITY_VALID`. -/
theorem encode_decode_roundtrip (cls id : Nat) (payload : List Nat)
    (h : payload.length ≤ MAX_PAYLOAD_SIZE) :
    PacketCodec.encode cls id payload =
      Except.ok (PacketCodec.mkFrame cls id payload) ∧
    (PacketCodec.decode PacketCodec.resetState
        (PacketCodec.mkFrame cls id payload)).dstate =
      PacketCodec.UbxDecodeStep.complete ∧
    (PacketCodec.decode PacketCodec.resetState
        (PacketCodec.mkFrame cls id payload)).packet.cls = cls ∧
    (PacketCodec.decode PacketCodec.resetState
        (PacketCodec.mkFrame cls id payload)).packet.id = id ∧
    (PacketCodec.decode PacketCodec.resetState
        (PacketCodec.mkFrame cls id payload)).packet.payload = payload ∧
    (PacketCodec.decode PacketCodec.resetState
        (PacketCodec.mkFrame cls id payload)).packet.valid = VALIDITY_VALID := by
  have h6 : payload.length < 65536 := by
    simp only [MAX_PAYLOAD_SIZE] at h
    omega
  refine ⟨?_, ?_⟩
  · rw [PacketCodec.encode, if_neg (not_lt.mpr h)]
  · rw [run_mkFrame cls id payload h6]
    simp [List.take_of_length_le h]

/-- C1 witness: the round trip at class 6, id 1, payload `[170, 187]`. -/
theorem encode_decode_roundtrip_witness :
    PacketCodec.encode 6 1 [170, 187] =
      Except.ok (PacketCodec.mkFrame 6 1 [170, 187]) ∧
    (PacketCodec.decode PacketCodec.resetState
        (PacketCodec.mkFrame 6 1 [170, 187])).dstate =
      PacketCodec.UbxDecodeStep.complete ∧
    (PacketCodec.decode PacketCodec.resetState
        (PacketCodec.mkFrame 6 1 [170, 187])).packet.cls = 6 ∧
    (PacketCodec.decode PacketCodec.resetState
        (PacketCodec.mkFrame 6 1 [170, 187])).packet.id = 1 ∧
    (PacketCodec.decode PacketCodec.resetState
        (PacketCodec.mkFrame 6 1 [170, 187])).packet.payload = [170, 187] ∧
    (PacketCodec.decode PacketCodec.resetState
        (PacketCodec.mkFrame 6 1 [170, 187])).packet.valid = VALIDITY_VALID :=
  encode_decode_roundtrip 6 1 [170, 187] (by decide)

/-- C3: a frame whose declared length exceeds the payload buffer capacity
still has every declared payload byte consumed and checksummed: the decoder
completes with `valid = VALIDITY_VALID` (the frame's checksum bytes match),
the overwrite condition is raised, the byte counter equals the declared
length plus the four header bytes, and only the first `MAX_PAYLOAD_SIZE`
bytes are stored. -/
theorem oversized_frame_decode (cls id : Nat) (payload : List Nat)
    (hover : MAX_PAYLOAD_SIZE < payload.length) (h : payload.length < 65536) :
    (PacketCodec.decode PacketCodec.resetState
        (PacketCodec.mkFrame cls id payload)).dstate =
      PacketCodec.UbxDecodeStep.complete ∧
    (PacketCodec.decode PacketCodec.resetState
        (PacketCodec.mkFrame cls id payload)).packet.valid = VALIDITY_VALID ∧
    (PacketCodec.decode PacketCodec.resetState
        (PacketCodec.mkFrame cls id payload)).overwritten = true ∧
    (PacketCodec.decode PacketCodec.resetState
        (PacketCodec.mkFrame cls id payload)).packet.counter =
      payload.length + 4 ∧
    (PacketCodec.decode PacketCodec.resetState
        (PacketCodec.mkFrame cls id payload)).packet.payload =
      payload.take MAX_PAYLOAD_SIZE := by
  rw [run_mkFrame cls id payload h]
  simp [hover]

/-- C3 witness: a frame with 277 declared payload bytes (one over capacity). -/
theorem oversized_frame_decode_witness :
    (PacketCodec.decode PacketCodec.resetState
        (PacketCodec.mkFrame 6 1 (List.replicate 277 7))).dstate =
      PacketCodec.UbxDecodeStep.complete ∧
    (PacketCodec.decode PacketCodec.resetState
        (PacketCodec.mkFrame 6 1 (List.replicate 277 7))).packet.valid =
      VALIDITY_VALID ∧
    (PacketCodec.decode PacketCodec.resetState
        (PacketCodec.mkFrame 6 1 (List.replicate 277 7))).overwritten = true ∧
    (PacketCodec.decode PacketCodec.resetState
        (PacketCodec.mkFrame 6 1 (List.replicate 277 7))).packet.counter =
      (List.replicate 277 7).length + 4 ∧
    (PacketCodec.decode PacketCodec.resetState
        (PacketCodec.mkFrame 6 1 (List.replicate 277 7))).packet.payload =
      (List.replicate 277 7).take MAX_PAYLOAD_SIZE :=
  oversized_frame_decode 6 1 (List.replicate 277 7)
    (by rw [List.length_replicate]; norm_num [MAX_PAYLOAD_SIZE])
    (by rw [List.length_replicate]; norm_num)

/-! ## CommandDispatcher -/

/-- While the decoder trajectory shows no completion, the dispatcher loop
just advances the decoder state. -/
theorem dispatch_skip (rc ri : Nat) (bytes : List Nat) :
    ∀ (s : PacketCodec.DecodeState) (saw : Bool) (rest : List Nat),
      PacketCodec.scanNoComplete s bytes = true →
      CommandDispatcher.loop rc ri s saw (bytes ++ rest) =
        CommandDispatcher.loop rc ri (PacketCodec.decode s bytes) saw rest := by
  induction bytes with
  | nil => intro s saw rest _; simp [PacketCodec.decode]
  | cons b t ih =>
      intro s saw rest hscan
      simp only [PacketCodec.scanNoComplete] at hscan
      by_cases hc : (PacketCodec.decodeByte s b).dstate =
          PacketCodec.UbxDecodeStep.complete
      · rw [if_pos hc] at hscan
        exact absurd hscan (by simp)
      · rw [if_neg hc] at hscan
        simp only [List.cons_append, CommandDispatcher.loop]
        rw [if_neg hc]
        simp only [List.append_eq]
        rw [ih _ saw rest hscan]
        congr 1

/-- `classify` never returns `VALIDITY_NOT_DEFINED`. -/
theorem classify_ne_not_defined (p : IUbxPacket) (rc ri : Nat) :
    PacketMatcher.classify p rc ri ≠ VALIDITY_NOT_DEFINED := by
  unfold PacketMatcher.classify
  split
  · simp
  · split <;> simp

/-- The dispatcher loop returns `TIMEOUT` exactly when no CRC failure was
recorded and every frame completed while scanning is checksum-valid but
unrelated to the requested pair. -/
theorem loop_timeout_iff (rc ri : Nat) (bytes : List Nat) :
    ∀ (s : PacketCodec.DecodeState) (saw : Bool),
      (CommandDispatcher.loop rc ri s saw bytes = TIMEOUT ↔
        saw = false ∧ ∀ p ∈ CommandDispatcher.completionsFrom s bytes,
          p.valid = VALIDITY_VALID ∧
          PacketMatcher.classify p rc ri = VALIDITY_NOT_VALID) := by
  induction bytes with
  | nil =>
      intro s saw
      simp only [CommandDispatcher.loop, CommandDispatcher.completionsFrom]
      cases saw <;> simp
  | cons b rest ih =>
      intro s saw
      simp only [CommandDispatcher.loop, CommandDispatcher.completionsFrom]
      by_cases hc : (PacketCodec.decodeByte s b).dstate =
          PacketCodec.UbxDecodeStep.complete
      · rw [if_pos hc, if_pos hc]
        by_cases hv : (PacketCodec.decodeByte s b).packet.valid = VALIDITY_VALID
        · rw [if_pos hv]
          simp only [PacketMatcher.applyMatch]
          rcases hcl : PacketMatcher.classify (PacketCodec.decodeByte s b).packet rc ri with
            hnv | hva | hnd | hna
          · simp [hcl, hv, ih _ saw]
          · simp [hcl, hv]
            split <;> simp
          · exact absurd hcl (classify_ne_not_defined _ _ _)
          · simp [hcl, hv]
        · rw [if_neg hv]
          rw [ih _ true]
          simp [hv]
      · rw [if_neg hc, if_neg hc]
        exact ih _ saw

/-- C2 counterexample: requesting (6, 1) while the incoming bytes hold a
well-formed NACK frame.  No checksum-valid completion matching (6, 1)
occurs, yet `sendCommand` returns `COMMAND_NACK`, not `TIMEOUT` — so
"`TIMEOUT` iff no matching checksum-valid completion" fails. -/
theorem sendCommand_timeout_iff_counterexample :
    ¬ (CommandDispatcher.sendCommand
          { PacketCodec.emptyPacket with cls := 6, id := 1 }
          (PacketCodec.mkFrame 5 0 []) = TIMEOUT ↔
        ∀ p ∈ CommandDispatcher.completions (PacketCodec.mkFrame 5 0 []),
          ¬(p.valid = VALIDITY_VALID ∧
            PacketMatcher.classify p 6 1 = VALIDITY_VALID)) := by
  decide

/-- C2 amended: `sendCommand` returns `TIMEOUT` iff every frame completed
within the wait window is checksum-valid and unrelated to the requested
pair — that is, no checksum-valid matching completion, no checksum-valid
NACK completion, and no checksum-invalid completion occurs (those yield
`DATA_SENT`/`DATA_RECEIVED`, `COMMAND_NACK` and `CRC_FAIL` instead). -/
theorem sendCommand_timeout_iff_amended (rc ri : Nat) (incoming : List Nat) :
    CommandDispatcher.sendCommand
        { PacketCodec.emptyPacket with cls := rc, id := ri } incoming = TIMEOUT ↔
      ∀ p ∈ CommandDispatcher.completions incoming,
        p.valid = VALIDITY_VALID ∧
        PacketMatcher.classify p rc ri = VALIDITY_NOT_VALID := by
  rw [CommandDispatcher.sendCommand, loop_timeout_iff]
  simp [CommandDispatcher.completions]

/-- From a reset decoder, the bytes of a well-formed NACK frame drive the
dispatcher loop to `COMMAND_NACK` at the frame's completion, for any CRC
flag carried in and regardless of any following traffic, provided the
requested pair is not the NACK pair itself. -/
theorem loop_nack_frame (rc ri : Nat) (payload extra : List Nat) (saw : Bool)
    (hreq : ¬(rc = PacketMatcher.UBX_CLASS_ACK ∧ ri = PacketMatcher.UBX_ACK_NACK))
    (h : payload.length < 65536) :
    CommandDispatcher.loop rc ri PacketCodec.resetState saw
        (PacketCodec.mkFrame PacketMatcher.UBX_CLASS_ACK
            PacketMatcher.UBX_ACK_NACK payload ++ extra) = COMMAND_NACK := by
  have hreq' : ¬(PacketMatcher.UBX_CLASS_ACK = rc ∧
      PacketMatcher.UBX_ACK_NACK = ri) :=
    fun hcon => hreq ⟨hcon.1.symm, hcon.2.symm⟩
  have hsplit2 : PacketCodec.mkFrame PacketMatcher.UBX_CLASS_ACK
        PacketMatcher.UBX_ACK_NACK payload ++ extra =
      (0xB5 :: 0x62 :: (PacketCodec.frameBody PacketMatcher.UBX_CLASS_ACK
          PacketMatcher.UBX_ACK_NACK payload ++
        [(ChecksumEngine.compute (PacketCodec.frameBody PacketMatcher.UBX_CLASS_ACK
            PacketMatcher.UBX_ACK_NACK payload)).1])) ++
      ((ChecksumEngine.compute (PacketCodec.frameBody PacketMatcher.UBX_CLASS_ACK
          PacketMatcher.UBX_ACK_NACK payload)).2 :: extra) := by
    simp [PacketCodec.mkFrame]
  rw [hsplit2,
    dispatch_skip _ _ _ _ saw _
      (run_front PacketMatcher.UBX_CLASS_ACK PacketMatcher.UBX_ACK_NACK payload h).2,
    (run_front PacketMatcher.UBX_CLASS_ACK PacketMatcher.UBX_ACK_NACK payload h).1]
  simp only [CommandDispatcher.loop, PacketCodec.decodeByte]
  simp [PacketMatcher.applyMatch, PacketMatcher.classify, hreq']

/-- A byte prefix on which `runState` reports no decision moves the loop to
the residual decoder state and CRC flag; the loop then continues on the
remaining bytes. -/
theorem loop_runState_append (rc ri : Nat) (pre : List Nat) :
    ∀ (s s2 : PacketCodec.DecodeState) (saw saw2 : Bool) (rest : List Nat),
      CommandDispatcher.runState rc ri s saw pre = some (s2, saw2) →
      CommandDispatcher.loop rc ri s saw (pre ++ rest) =
        CommandDispatcher.loop rc ri s2 saw2 rest := by
  induction pre with
  | nil =>
      intro s s2 saw saw2 rest h
      simp only [CommandDispatcher.runState, Option.some.injEq, Prod.mk.injEq] at h
      rw [h.1, h.2]
      simp
  | cons b t ih =>
      intro s s2 saw saw2 rest h
      simp only [CommandDispatcher.runState] at h
      simp only [List.cons_append, CommandDispatcher.loop]
      by_cases hc : (PacketCodec.decodeByte s b).dstate =
          PacketCodec.UbxDecodeStep.complete
      · rw [if_pos hc] at h ⊢
        by_cases hv : (PacketCodec.decodeByte s b).packet.valid = VALIDITY_VALID
        · rw [if_pos hv] at h ⊢
          rcases hcl : (PacketMatcher.applyMatch
              (PacketCodec.decodeByte s b).packet rc ri).classAndIDmatch with
            hnv | hva | hnd | hna
          · simp only [hcl] at h ⊢
            simp only [List.append_eq] at h ⊢
            exact ih _ _ _ _ _ h
          · simp [hcl] at h
          · simp only [hcl] at h ⊢
            simp only [List.append_eq] at h ⊢
            exact ih _ _ _ _ _ h
          · simp [hcl] at h
        · rw [if_neg hv] at h ⊢
          exact ih _ _ _ _ _ h
      · rw [if_neg hc] at h ⊢
        exact ih _ _ _ _ _ h

/-- C7 counterexample: with the requested pair equal to the fixed
ACK-class/NACK-id pair itself, the incoming stream completes a well-formed,
checksum-valid NACK frame before the deadline, yet `sendCommand` returns
`DATA_SENT` rather than `COMMAND_NACK` — the exact match classifies as
`VALIDITY_VALID` first, so the claim as stated fails at this input. -/
theorem nack_request_pair_counterexample :
    (∃ p ∈ CommandDispatcher.completions (PacketCodec.mkFrame 5 0 []),
      p.cls = PacketMatcher.UBX_CLASS_ACK ∧ p.id = PacketMatcher.UBX_ACK_NACK ∧
        p.valid = VALIDITY_VALID) ∧
    CommandDispatcher.sendCommand
        { PacketCodec.emptyPacket with cls := 5, id := 0 }
        (PacketCodec.mkFrame 5 0 []) = DATA_SENT ∧
    DATA_SENT ≠ COMMAND_NACK := by
  decide

/-- C7 amended: for every incoming stream consisting of prefix traffic on
which the dispatcher decides nothing (its completions are discarded or only
CRC failures, and the decoder is back at a frame boundary — `runState`
returns `resetState` with some CRC flag), followed by a well-formed,
checksum-valid NACK frame and then arbitrary further pre-deadline traffic,
`sendCommand` returns `COMMAND_NACK` immediately upon the NACK completion,
never consuming the remainder — provided the requested pair is not the
ACK-class/NACK-id pair itself (for that pair the NACK classifies as a match
and yields the data outcome instead, per the counterexample). -/
theorem nack_completion_returns_command_nack (rc ri : Nat)
    (pre payload extra : List Nat) (saw : Bool)
    (hreq : ¬(rc = PacketMatcher.UBX_CLASS_ACK ∧ ri = PacketMatcher.UBX_ACK_NACK))
    (hlen : payload.length < 65536)
    (hpre : CommandDispatcher.runState rc ri PacketCodec.resetState false pre =
      some (PacketCodec.resetState, saw)) :
    CommandDispatcher.sendCommand
        { PacketCodec.emptyPacket with cls := rc, id := ri }
        (pre ++ (PacketCodec.mkFrame PacketMatcher.UBX_CLASS_ACK
            PacketMatcher.UBX_ACK_NACK payload ++ extra)) = COMMAND_NACK := by
  rw [CommandDispatcher.sendCommand,
    loop_runState_append _ _ pre _ _ _ _ _ hpre]
  exact loop_nack_frame rc ri payload extra saw hreq hlen

/-- C7 witness: requesting (6, 1), an unrelated valid frame (class 7, id 7)
is discarded, then a NACK frame with payload `[6, 1]` completes, and the
trailing bytes are never needed: the outcome is `COMMAND_NACK`. -/
theorem nack_completion_returns_command_nack_witness :
    CommandDispatcher.sendCommand
        { PacketCodec.emptyPacket with cls := 6, id := 1 }
        (PacketCodec.mkFrame 7 7 [] ++
          (PacketCodec.mkFrame PacketMatcher.UBX_CLASS_ACK
              PacketMatcher.UBX_ACK_NACK [6, 1] ++ [181, 98, 9])) = COMMAND_NACK :=
  nack_completion_returns_command_nack 6 1 (PacketCodec.mkFrame 7 7 []) [6, 1]
    [181, 98, 9] false (by decide) (by decide) (by decide)
